import Mathlib

/-!
# Verification of the cancellation-bulletin parser

Shallow embedding of the parsing core of `api/parser.ts` / the single-file
variant (`parseCancellationHtml`, `toHalfWidth`, the `SYMBOLS` table) and of
the HTTP error mapping of `fetchAndParse`.

The HTML-to-paragraph decomposition is delegated to an external collaborator
(cheerio / node-html-parser); following the spec's input contract, the core is
modelled over an ordered sequence of paragraph descriptors, each exposing its
text and whether it contains a `<mark>` (emphasis) element.

JavaScript string semantics are embedded explicitly:
* `jsTrim` / `isJsWhitespace` model `String.prototype.trim` and the regex
  class `\s` (they coincide in JavaScript: WhiteSpace ∪ LineTerminator);
* `splitWs` models `content.split(/\s+/)` (leading/trailing separators yield
  empty fields, as in JS `split`);
* `splitArrow` models `subject.split(/\s*(?:⇒|→|=>|->)\s*/)`;
* `matchDate` models the anchored regex `^(\d{1,2}\/\d{1,2}(?:\(.\))?)`;
* `jsOrString` models `a || b` on strings (empty string is falsy);
* `truthy` models the truthiness test of a `string | undefined` value.
All four marker symbols are single UTF-16 code units, so `substring(1)` is
dropping one character.
-/

set_option autoImplicit false

namespace Bulletin

/-- A paragraph descriptor: its text content and whether the paragraph
contains a `<mark>` element (`p.find("mark").length > 0` /
`p.querySelector("mark") !== null`). -/
structure Para where
  text : String
  hasMark : Bool
  deriving DecidableEq, Repr

/-- Output record, mirroring the `CancellationItem` interface. The two
optional fields are modelled by `Option`: `none` means the field is not set
on the object (and hence omitted, not `null`, in the serialized JSON). -/
structure CancellationItem where
  date : String
  type : String
  symbol : String
  target_class : String
  period : String
  subject : String
  subject_from : Option String
  subject_to : Option String
  raw_text : String
  deriving DecidableEq, Repr

/-- The JavaScript whitespace set: the characters matched by `\s` and trimmed
by `String.prototype.trim` (ECMAScript WhiteSpace ∪ LineTerminator). -/
def isJsWhitespace (c : Char) : Bool :=
  c = '\t' || c = '\n' || c.toNat = 0xB || c.toNat = 0xC || c = '\r' ||
  c = ' ' || c.toNat = 0xA0 || c.toNat = 0x1680 ||
  (0x2000 ≤ c.toNat && c.toNat ≤ 0x200A) ||
  c.toNat = 0x2028 || c.toNat = 0x2029 || c.toNat = 0x202F ||
  c.toNat = 0x205F || c.toNat = 0x3000 || c.toNat = 0xFEFF

/-- `String.prototype.trim`: remove leading and trailing JS whitespace. -/
def jsTrim (s : String) : String :=
  ⟨((s.data.dropWhile isJsWhitespace).reverse.dropWhile isJsWhitespace).reverse⟩

/-- One step of `toHalfWidth`'s first replace:
`.replace(/[！-～]/g, s => String.fromCharCode(s.charCodeAt(0) - 0xfee0))`.
The class `[！-～]` is the code-unit range U+FF01–U+FF5E; surrogate halves lie
outside it, so the per-character map agrees with the per-code-unit one. -/
def fullWidthStep (c : Char) : Char :=
  if 0xFF01 ≤ c.toNat && c.toNat ≤ 0xFF5E then Char.ofNat (c.toNat - 0xFEE0)
  else c

/-- `toHalfWidth`: the source's five sequential `replace` calls. The last
three (`／`, `（`, `）`) are no-ops after the first (their code points lie in
U+FF01–U+FF5E), but are kept to mirror the source. -/
def toHalfWidth (s : String) : String :=
  ⟨((((s.data.map fullWidthStep).map
      (fun c => if c.toNat = 0x3000 then ' ' else c)).map
      (fun c => if c = '／' then '/' else c)).map
      (fun c => if c = '（' then '(' else c)).map
      (fun c => if c = '）' then ')' else c)⟩

/-- The regex class `\d`: an ASCII digit. -/
def isAsciiDigit (c : Char) : Bool := '0' ≤ c && c ≤ '9'

/-- `s.match(/\d/) !== null`: some character of `s` is an ASCII digit. -/
def hasDigit (s : String) : Bool := s.data.any isAsciiDigit

/-- `s.includes(sub)`: substring containment. -/
def containsSub (s sub : String) : Bool := go s.data
where
  go : List Char → Bool
  | [] => sub.data.isPrefixOf []
  | c :: t => sub.data.isPrefixOf (c :: t) || go t

/-- `s.replace(/\s/g, "")`: delete every JS whitespace character. -/
def removeWs (s : String) : String :=
  ⟨s.data.filter (fun c => !isJsWhitespace c)⟩

/-- A line terminator (the characters NOT matched by the regex `.`). -/
def isLineTerminator (c : Char) : Bool :=
  c = '\n' || c = '\r' || c.toNat = 0x2028 || c.toNat = 0x2029

/-- The anchored match of `^(\d{1,2}\/\d{1,2}(?:\(.\))?)` against the list of
characters, returning the captured prefix. Greedy `\d{1,2}` followed by `/`
(respectively by the optional group, which can match the empty string) is
equivalent to taking the digit run capped at two characters, because a failed
backtrack from two digits to one still faces a digit where `/` is required. -/
def matchDate (l : List Char) : Option (List Char) :=
  let d1 := (l.takeWhile isAsciiDigit).take 2
  if d1.length = 0 then none else
  match l.drop d1.length with
  | '/' :: r2 =>
    let d2 := (r2.takeWhile isAsciiDigit).take 2
    if d2.length = 0 then none else
    let base := d1 ++ '/' :: d2
    match r2.drop d2.length with
    | '(' :: c :: ')' :: _ =>
      if isLineTerminator c then some base else some (base ++ ['(', c, ')'])
    | _ => some base
  | _ => none

/-- `normalizedText.match(/^(\d{1,2}\/\d{1,2}(?:\(.\))?)/)`, as the captured
prefix when the match succeeds. -/
def matchDatePrefix (s : String) : Option String :=
  (matchDate s.data).map String.mk

/-- Worker for `splitWs`: scan left to right; `acc` is the current field in
reverse, `inWs` records whether the previous character belonged to the
whitespace run currently being consumed (the `+` of `/\s+/`). -/
def splitWsGo : List Char → List Char → Bool → List String
  | [], acc, _ => [String.mk acc.reverse]
  | c :: t, acc, inWs =>
    if isJsWhitespace c then
      if inWs then splitWsGo t acc true
      else String.mk acc.reverse :: splitWsGo t [] true
    else splitWsGo t (c :: acc) false

/-- `content.split(/\s+/)`: fields between maximal runs of JS whitespace.
As in JS `split`, a leading (resp. trailing) run produces a leading (resp.
trailing) empty field, and `"".split(/\s+/)` is `[""]`. -/
def splitWs (s : String) : List String := splitWsGo s.data [] false

/-- Split at the arrow glyphs alone (`⇒`, `→`, `=>`, `->`, scanning left to
right), keeping any whitespace inside the fields. The third argument holds a
pending `=` or `-` whose classification (start of `=>` / `->`, or ordinary
character) depends on the next character. -/
def splitArrowRaw : List Char → List Char → Option Char → List String
  | [], acc, none => [String.mk acc.reverse]
  | [], acc, some p => [String.mk (p :: acc).reverse]
  | c :: t, acc, none =>
    if c = '⇒' || c = '→' then String.mk acc.reverse :: splitArrowRaw t [] none
    else if c = '=' || c = '-' then splitArrowRaw t acc (some c)
    else splitArrowRaw t (c :: acc) none
  | c :: t, acc, some p =>
    if c = '>' then String.mk acc.reverse :: splitArrowRaw t [] none
    else if c = '⇒' || c = '→' then
      String.mk (p :: acc).reverse :: splitArrowRaw t [] none
    else if c = '=' || c = '-' then splitArrowRaw t (p :: acc) (some c)
    else splitArrowRaw t (c :: p :: acc) none

/-- Remove leading JS whitespace. -/
def dropLeadingWs (s : String) : String := ⟨s.data.dropWhile isJsWhitespace⟩

/-- Remove trailing JS whitespace. -/
def dropTrailingWs (s : String) : String :=
  ⟨(s.data.reverse.dropWhile isJsWhitespace).reverse⟩

/-- Glue the raw segments back into the fields of
`split(/\s*(?:⇒|→|=>|->)\s*/)`: the `\s*` on each side of the arrow consumes
exactly the whitespace adjacent to that arrow, i.e. the trailing whitespace
of the segment before it and the leading whitespace of the segment after
it. -/
def trimSegsGo (f : String) : List String → List String
  | [] => [f]
  | g :: t => dropTrailingWs f :: trimSegsGo (dropLeadingWs g) t

/-- `subject.split(/\s*(?:⇒|→|=>|->)\s*/)`: each match is a maximal
whitespace run, an arrow, and a maximal whitespace run (an arrow's first
character is never whitespace, so the greedy `\s*` never backtracks and the
leftmost match begins at the whitespace run immediately preceding the
leftmost arrow). -/
def splitArrow (s : String) : List String :=
  match splitArrowRaw s.data [] none with
  | [] => []
  | f :: rest => trimSegsGo f rest

/-- `Array.prototype.join(sep)`. -/
def joinSep (sep : String) : List String → String
  | [] => ""
  | [a] => a
  | a :: b :: t => a ++ sep ++ joinSep sep (b :: t)

/-- JavaScript `a || b` on strings: the empty string is falsy. -/
def jsOrString (a b : String) : String := if a = "" then b else a

/-- Truthiness of a `string | undefined` value: `undefined` and `""` are
falsy. -/
def truthy : Option String → Bool
  | none => false
  | some s => s ≠ ""

/-- The `SYMBOLS` record: symbol glyph → human-readable category. -/
def SYMBOLS : List (Char × String) :=
  [('◉', "休講"), ('◎', "補講"), ('◇', "遠隔"), ('☆', "変更")]

/-- The four glyphs of the detection regex `/^([◉◎◇☆])/`. -/
def recordSymbols : List Char := ['◉', '◎', '◇', '☆']

/-- `rawText.match(/^([◉◎◇☆])/)`: the leading character when it is one of
the four marker glyphs. -/
def symbolMatch : List Char → Option Char
  | [] => none
  | c :: _ => if c ∈ recordSymbols then some c else none

/-- `SYMBOLS[symbol] || "その他"`: association-list lookup with the JS `||`
fallback (`undefined` or `""` falls through to the default). -/
def symbolType (symbol : Char) : String :=
  match SYMBOLS.lookup symbol with
  | none => "その他"
  | some s => jsOrString s "その他"

/-- The substitution-arrow analysis (step 3 of the loop) followed by the
`if (subjectFrom && subjectTo)` guard: the `subject_from` / `subject_to`
fields that end up on the item, from its `subject`. `subjectFrom` and
`subjectTo` are assigned exactly when the split has more than one segment,
and copied onto the item only when both are truthy (defined and
non-empty). -/
def changeFields (subject : String) : Option String × Option String :=
  let splitSubjects := splitArrow subject
  let subjectFrom : Option String :=
    if 1 < splitSubjects.length then some (splitSubjects.getD 0 "") else none
  let subjectTo : Option String :=
    if 1 < splitSubjects.length then
      some (joinSep "⇒" (splitSubjects.drop 1))
    else none
  if truthy subjectFrom && truthy subjectTo then (subjectFrom, subjectTo)
  else (none, none)

/-- Lines 84–136 of the parser loop: build a `CancellationItem` from the
current date, the matched leading symbol, and the normalized content that
followed it. -/
def buildItem (currentDate : String) (symbol : Char) (content : String) :
    CancellationItem :=
  let parts := splitWs content
  let targetClass := jsOrString (parts.getD 0 "") ""
  let periodCond := decide (1 < parts.length) &&
    (hasDigit (parts.getD 1 "") ||
     containsSub (parts.getD 1 "") "限" ||
     containsSub (parts.getD 1 "") "コマ")
  let period := if periodCond then parts.getD 1 "" else ""
  let subjectStartIndex := if periodCond then 2 else 1
  let subject := joinSep " " (parts.drop subjectStartIndex)
  { date := jsOrString currentDate "日付不明"
    type := symbolType symbol
    symbol := String.mk [symbol]
    target_class := targetClass
    period := period
    subject := subject
    subject_from := (changeFields subject).1
    subject_to := (changeFields subject).2
    raw_text := String.mk [symbol] ++ content }

/-- The date-line test of step 1 of the loop:
`hasMark || (dateMatch && !isLinkOrDescription)`. -/
def isDateLine (p : Para) : Bool :=
  let normalizedText := toHalfWidth (jsTrim p.text)
  p.hasMark ||
    ((matchDatePrefix normalizedText).isSome &&
     !(containsSub normalizedText "日程" || containsSub normalizedText "について"))

/-- One iteration of the `$("p").each` loop: from the running `currentDate`
and the paragraph, the new `currentDate` and the optionally emitted record. -/
def processPara (currentDate : String) (p : Para) :
    String × Option CancellationItem :=
  let rawText := jsTrim p.text
  let normalizedText := toHalfWidth rawText
  if isDateLine p then
    match matchDatePrefix normalizedText with
    | some m => (m, none)
    | none => (removeWs normalizedText, none)
  else
    match symbolMatch rawText.data with
    | some symbol =>
      let content := toHalfWidth (jsTrim (String.mk rawText.data.tail))
      (currentDate, some (buildItem currentDate symbol content))
    | none => (currentDate, none)

/-- The loop over all paragraphs, threading `currentDate`. -/
def parseParas : List Para → String → List CancellationItem
  | [], _ => []
  | p :: ps, d =>
    match (processPara d p).2 with
    | none => parseParas ps (processPara d p).1
    | some item => item :: parseParas ps (processPara d p).1

/-- `parseCancellationHtml`, over the paragraph decomposition of the
document; `currentDate` starts as the empty string. -/
def parseCancellationHtml (paras : List Para) : List CancellationItem :=
  parseParas paras ""

/-- Instrumented variant of the loop that tags each emitted record with the
zero-based index of the paragraph that produced it, for stating order
preservation. -/
def parseParasIdx : List Para → String → Nat → List (Nat × CancellationItem)
  | [], _, _ => []
  | p :: ps, d, i =>
    match (processPara d p).2 with
    | none => parseParasIdx ps (processPara d p).1 (i + 1)
    | some item => (i, item) :: parseParasIdx ps (processPara d p).1 (i + 1)

/-- Rebuild `raw_text` from the record's other fields: the symbol followed by
the nonempty ones among `target_class`, `period`, `subject`, joined by single
spaces. -/
def reconstructRaw (it : CancellationItem) : String :=
  it.symbol ++ joinSep " " ([it.target_class, it.period, it.subject].filter
    (fun s => s ≠ ""))

/-- The part of a WordPress post that `fetchAndParse` reads. The rendered
HTML content is represented by its paragraph decomposition (delegated to the
HTML-parsing collaborator). -/
structure WpPost where
  link : String
  modified : String
  title : String
  contentParas : List Para
  deriving Repr

/-- The outcome of the bounded-time upstream fetch as observed by
`fetchAndParse`: an HTTP response with a status code, an `AbortError` thrown
because the 8-second timer fired, or any other exception (network failure,
JSON parse failure, ...). -/
inductive UpstreamResult where
  | response (status : Nat) (post : WpPost)
  | abortError
  | otherError
  deriving Repr

/-- Body of the handler's JSON response: the `{ meta, data }` envelope on
success, or an `{ error, id? }` object. -/
inductive ApiBody where
  | payload (source_url updated_at title api_version : String)
      (data : List CancellationItem)
  | errorMsg (msg : String) (id : Option String)
  deriving Repr

/-- `fetchAndParse` of the single-file variant, as a function from the
observed upstream outcome to the HTTP status and body of the handler's
response. `Response.ok` is `200 ≤ status ≤ 299`. -/
def fetchAndParse (postId : String) : UpstreamResult → Nat × ApiBody
  | .response status post =>
    if !(200 ≤ status && status ≤ 299) then
      if status = 404 then (404, .errorMsg "Article Not Found" (some postId))
      else (502, .errorMsg ("WordPress API Error: " ++ toString status) none)
    else
      (200, .payload post.link post.modified post.title "1.0.0"
        (parseCancellationHtml post.contentParas))
  | .abortError => (504, .errorMsg "External API timeout - please try again" none)
  | .otherError => (500, .errorMsg "Internal Server Error" none)

/-- A concrete document used by witnesses: a single record paragraph with a
period token and no date paragraph. -/
def sampleDoc : List Para := [⟨"◉A 3限 English", false⟩]

/-- The record the parser emits on `sampleDoc`. -/
def sampleItem : CancellationItem :=
  ⟨"日付不明", "休講", "◉", "A", "3限", "English", none, none, "◉A 3限 English"⟩

/-- A concrete document used by witnesses: a record whose second token is a
period designator recognized only via the コマ keyword. -/
def sampleDocPeriod : List Para := [⟨"◉B 空きコマ 数学", false⟩]

/-- The record the parser emits on `sampleDocPeriod`. -/
def sampleItemPeriod : CancellationItem :=
  ⟨"日付不明", "休講", "◉", "B", "空きコマ", "数学", none, none, "◉B 空きコマ 数学"⟩

/-- A concrete document used by witnesses: a single substitution record. -/
def sampleDocArrow : List Para := [⟨"☆A B⇒C", false⟩]

/-- The record the parser emits on `sampleDocArrow`. -/
def sampleItemArrow : CancellationItem :=
  ⟨"日付不明", "変更", "☆", "A", "", "B⇒C", some "B", some "C", "☆A B⇒C"⟩

/-! ## Helper lemmas -/

theorem truthy_isSome {o : Option String} (h : truthy o = true) : o.isSome := by
  cases o with
  | none => cases h
  | some s => rfl

theorem jsOrString_self_empty (x : String) : jsOrString x "" = x := by
  unfold jsOrString
  split
  · simp [*]
  · rfl

theorem symbolMatch_mem : ∀ {l : List Char} {c : Char},
    symbolMatch l = some c → c ∈ recordSymbols
  | [], _, h => by cases h
  | a :: t, c, h => by
    by_cases ha : a ∈ recordSymbols
    · have he : symbolMatch (a :: t) = some a := by simp [symbolMatch, ha]
      rw [he] at h
      injection h with h2
      exact h2 ▸ ha
    · have he : symbolMatch (a :: t) = none := by simp [symbolMatch, ha]
      rw [he] at h
      cases h

/-- Every record emitted by one loop iteration is `buildItem` applied to the
running date, a recognized symbol, and some content string. -/
theorem processPara_emit {d : String} {p : Para} {item : CancellationItem}
    (h : (processPara d p).2 = some item) :
    ∃ sym content, sym ∈ recordSymbols ∧ item = buildItem d sym content := by
  unfold processPara at h
  by_cases hdl : isDateLine p
  · rw [if_pos hdl] at h
    split at h <;> cases h
  · rw [if_neg hdl] at h
    revert h
    cases hsm : symbolMatch (jsTrim p.text).data with
    | none => intro h; cases h
    | some sym =>
      intro h
      injection h with h2
      exact ⟨sym, _, symbolMatch_mem hsm, h2.symm⟩

/-- A paragraph that is not a date line leaves `currentDate` unchanged. -/
theorem nextDate_of_not_dateLine {d : String} {p : Para}
    (h : isDateLine p = false) : (processPara d p).1 = d := by
  unfold processPara
  rw [if_neg (by simp [h])]
  cases symbolMatch (jsTrim p.text).data <;> rfl

/-- Every record in the output of the loop is a `buildItem` value for a
recognized symbol. -/
theorem mem_parseParas {item : CancellationItem} :
    ∀ (ps : List Para) (d : String), item ∈ parseParas ps d →
    ∃ d2 sym content, sym ∈ recordSymbols ∧ item = buildItem d2 sym content
  | [], _, h => by cases h
  | p :: ps, d, h => by
    rw [parseParas] at h
    cases hpp : (processPara d p).2 with
    | none =>
      simp only [hpp] at h
      exact mem_parseParas ps _ h
    | some it =>
      simp only [hpp] at h
      rcases List.mem_cons.mp h with h1 | h1
      · subst h1
        obtain ⟨sym, content, hs, he⟩ := processPara_emit hpp
        exact ⟨d, sym, content, hs, he⟩
      · exact mem_parseParas ps _ h1

theorem mem_parse_build {item : CancellationItem} {paras : List Para}
    (h : item ∈ parseCancellationHtml paras) :
    ∃ d sym content, sym ∈ recordSymbols ∧ item = buildItem d sym content :=
  mem_parseParas paras "" h

theorem buildItem_date (d : String) (sym : Char) (content : String) :
    (buildItem d sym content).date = jsOrString d "日付不明" := rfl

theorem buildItem_symbol (d : String) (sym : Char) (content : String) :
    (buildItem d sym content).symbol = String.mk [sym] := rfl

theorem buildItem_type (d : String) (sym : Char) (content : String) :
    (buildItem d sym content).type = symbolType sym := rfl

theorem jsOr_sentinel_ne_empty (d : String) : jsOrString d "日付不明" ≠ "" := by
  unfold jsOrString
  split
  · decide
  · assumption

/-- With no date line in sight and an empty running date, every emitted
record carries the sentinel date. -/
theorem parseParas_sentinel :
    ∀ ps : List Para, (∀ p ∈ ps, isDateLine p = false) →
      ∀ item ∈ parseParas ps "", item.date = "日付不明"
  | [], _, _, h => by cases h
  | p :: ps, hnd, item, h => by
    rw [parseParas] at h
    have hp : isDateLine p = false := hnd p (List.mem_cons_self p ps)
    have hrest : ∀ q ∈ ps, isDateLine q = false :=
      fun q hq => hnd q (List.mem_cons_of_mem _ hq)
    cases hpp : (processPara "" p).2 with
    | none =>
      simp only [hpp] at h
      rw [nextDate_of_not_dateLine hp] at h
      exact parseParas_sentinel ps hrest item h
    | some it =>
      simp only [hpp] at h
      rw [nextDate_of_not_dateLine hp] at h
      rcases List.mem_cons.mp h with h1 | h1
      · obtain ⟨sym, content, _, he⟩ := processPara_emit hpp
        rw [h1, he, buildItem_date]
        decide
      · exact parseParas_sentinel ps hrest item h1

theorem buildItem_from (d : String) (sym : Char) (content : String) :
    (buildItem d sym content).subject_from =
      (changeFields (buildItem d sym content).subject).1 := rfl

theorem buildItem_to (d : String) (sym : Char) (content : String) :
    (buildItem d sym content).subject_to =
      (changeFields (buildItem d sym content).subject).2 := rfl

/-- Explicit form of `changeFields`: both fields are set exactly when the
arrow split has more than one segment and both the first segment and the
rejoined remainder are non-empty. -/
theorem changeFields_eq (subject : String) :
    changeFields subject =
      if 1 < (splitArrow subject).length ∧ (splitArrow subject).getD 0 "" ≠ "" ∧
          joinSep "⇒" ((splitArrow subject).drop 1) ≠ "" then
        (some ((splitArrow subject).getD 0 ""),
         some (joinSep "⇒" ((splitArrow subject).drop 1)))
      else (none, none) := by
  simp only [changeFields]
  generalize splitArrow subject = segs
  generalize segs.getD 0 "" = a
  generalize joinSep "⇒" (segs.drop 1) = b
  by_cases hl : 1 < segs.length
  · by_cases ha : a = ""
    · simp [truthy, hl, ha]
    · by_cases hb : b = ""
      · simp [truthy, hl, ha, hb]
      · simp [truthy, hl, ha, hb]
  · simp [truthy, hl]

theorem buildItem_from_to (d : String) (sym : Char) (content : String) :
    (buildItem d sym content).subject_from.isSome =
      (buildItem d sym content).subject_to.isSome := by
  rw [buildItem_from, buildItem_to, changeFields_eq]
  split <;> rfl

theorem parseParasIdx_spec :
    ∀ (ps : List Para) (d : String) (i : Nat),
      (parseParasIdx ps d i).map Prod.snd = parseParas ps d ∧
      (∀ pr ∈ parseParasIdx ps d i, i ≤ pr.1) ∧
      (parseParasIdx ps d i).Pairwise (fun a b => a.1 < b.1)
  | [], d, i => by simp [parseParasIdx, parseParas]
  | p :: ps, d, i => by
    have ih := parseParasIdx_spec ps (processPara d p).1 (i + 1)
    rw [parseParasIdx, parseParas]
    cases hpp : (processPara d p).2 with
    | none =>
      simp only [hpp]
      exact ⟨ih.1, fun pr hpr => Nat.le_of_succ_le (ih.2.1 pr hpr), ih.2.2⟩
    | some it =>
      simp only [hpp]
      refine ⟨?_, ?_, ?_⟩
      · simp [ih.1]
      · intro pr hpr
        rcases List.mem_cons.mp hpr with h1 | h1
        · rw [h1]
        · exact Nat.le_of_succ_le (ih.2.1 pr h1)
      · refine List.pairwise_cons.mpr ⟨?_, ih.2.2⟩
        intro b hb
        exact Nat.lt_of_succ_le (ih.2.1 b hb)

theorem symbolType_cases {sym : Char} (hs : sym ∈ recordSymbols) :
    (String.mk [sym] = "◉" ∧ symbolType sym = "休講") ∨
    (String.mk [sym] = "◎" ∧ symbolType sym = "補講") ∨
    (String.mk [sym] = "◇" ∧ symbolType sym = "遠隔") ∨
    (String.mk [sym] = "☆" ∧ symbolType sym = "変更") := by
  simp only [recordSymbols, List.mem_cons, List.not_mem_nil, or_false] at hs
  rcases hs with h | h | h | h <;> subst h
  · exact Or.inl ⟨by decide, by decide⟩
  · exact Or.inr (Or.inl ⟨by decide, by decide⟩)
  · exact Or.inr (Or.inr (Or.inl ⟨by decide, by decide⟩))
  · exact Or.inr (Or.inr (Or.inr ⟨by decide, by decide⟩))

theorem string_data_append (a b : String) : (a ++ b).data = a.data ++ b.data := by
  cases a
  cases b
  rfl

theorem data_eq_empty : ∀ {a : String}, a.data = [] → a = ""
  | ⟨[]⟩, _ => rfl
  | ⟨_ :: _⟩, h => nomatch h

theorem append_ne_empty_left (a b : String) (h : a ≠ "") : a ++ b ≠ "" := by
  intro he
  apply h
  apply data_eq_empty
  have hd : a.data ++ b.data = [] := by
    rw [← string_data_append, he]
  exact (List.append_eq_nil.mp hd).1

theorem joinSep_cons_ne_empty (sep x : String) (xs : List String) (hx : x ≠ "") :
    joinSep sep (x :: xs) ≠ "" := by
  cases xs with
  | nil => simpa [joinSep] using hx
  | cons y ys =>
    rw [joinSep]
    exact append_ne_empty_left _ _ (append_ne_empty_left _ _ hx)

/-- Joining the nonempty ones among the three token-derived fields with
single spaces recovers the joined token list, provided every token is
nonempty. `pc` abstracts the period-detection condition; it can only be true
when there are at least two tokens. -/
theorem fields_join_aux (pc : Bool) (parts : List String)
    (hne : ∀ t ∈ parts, t ≠ "") (hpc : pc = true → 1 < parts.length) :
    joinSep " " ([jsOrString (parts.getD 0 "") "",
      if pc then parts.getD 1 "" else "",
      joinSep " " (parts.drop (if pc then 2 else 1))].filter
        (fun s => decide (s ≠ ""))) = joinSep " " parts := by
  cases parts with
  | nil =>
    have hpcf : pc = false := by
      cases pc
      · rfl
      · have := hpc rfl
        simp at this
    subst hpcf
    simp [joinSep, jsOrString, List.filter]
  | cons t0 rest =>
    have ht0 : t0 ≠ "" := hne t0 (by simp)
    cases rest with
    | nil =>
      have hpcf : pc = false := by
        cases pc
        · rfl
        · have := hpc rfl
          simp at this
      subst hpcf
      simp [joinSep, jsOrString, List.filter, ht0]
    | cons t1 rest2 =>
      have ht1 : t1 ≠ "" := hne t1 (by simp)
      cases pc with
      | true =>
        cases rest2 with
        | nil => simp [joinSep, jsOrString, List.filter, ht0, ht1]
        | cons r rs =>
          have hr : r ≠ "" := hne r (by simp)
          have hj : joinSep " " (r :: rs) ≠ "" := joinSep_cons_ne_empty _ _ _ hr
          simp [joinSep, jsOrString, List.filter, ht0, ht1, hj]
      | false =>
        have hj : joinSep " " (t1 :: rest2) ≠ "" :=
          joinSep_cons_ne_empty _ _ _ ht1
        simp [joinSep, jsOrString, List.filter, ht0, hj]

/-! ## Claim theorems -/

/-- C3: for every record emitted by any parse call, `subject_from` and
`subject_to` are either both present or both absent, never exactly one of
them (absence is a missing field, modelled by `none`, not a null). -/
theorem from_to_both_or_neither (paras : List Para) (item : CancellationItem)
    (h : item ∈ parseCancellationHtml paras) :
    item.subject_from.isSome = item.subject_to.isSome := by
  obtain ⟨d, sym, content, _, he⟩ := mem_parse_build h
  rw [he]
  exact buildItem_from_to d sym content

theorem from_to_both_or_neither_witness :
    sampleItemArrow ∈ parseCancellationHtml sampleDocArrow ∧
    sampleItemArrow.subject_from.isSome = sampleItemArrow.subject_to.isSome :=
  ⟨by decide, from_to_both_or_neither sampleDocArrow sampleItemArrow (by decide)⟩

/-- C4: on a document with no date paragraphs every emitted record carries
the sentinel date `日付不明` ("date unknown"), and on every document no
emitted record has an empty date. -/
theorem date_nonempty_and_sentinel (paras : List Para) :
    (∀ item ∈ parseCancellationHtml paras, item.date ≠ "") ∧
    ((∀ p ∈ paras, isDateLine p = false) →
      ∀ item ∈ parseCancellationHtml paras, item.date = "日付不明") := by
  constructor
  · intro item h
    obtain ⟨d, sym, content, _, he⟩ := mem_parse_build h
    rw [he, buildItem_date]
    exact jsOr_sentinel_ne_empty d
  · intro hnd
    exact parseParas_sentinel paras hnd

theorem date_nonempty_and_sentinel_witness :
    sampleItem.date ≠ "" ∧ sampleItem.date = "日付不明" :=
  ⟨(date_nonempty_and_sentinel sampleDoc).1 sampleItem (by decide),
   (date_nonempty_and_sentinel sampleDoc).2 (by decide) sampleItem (by decide)⟩

/-- C6: the emitted records appear in the output in the same relative order
as their source paragraphs: tagging each record with the index of the
paragraph that produced it yields the output list (projection) with strictly
increasing tags. -/
theorem records_in_paragraph_order (paras : List Para) :
    (parseParasIdx paras "" 0).map Prod.snd = parseCancellationHtml paras ∧
    (parseParasIdx paras "" 0).Pairwise (fun a b => a.1 < b.1) :=
  ⟨(parseParasIdx_spec paras "" 0).1, (parseParasIdx_spec paras "" 0).2.2⟩

/-- C7: every emitted record's `symbol` is one of the four recognized glyphs
and its `type` (the spec's `kind`) is the category the fixed 4-entry
`SYMBOLS` mapping assigns to that glyph; the defensive `その他` ("other")
default is never produced. -/
theorem symbol_kind_closed (paras : List Para) (item : CancellationItem)
    (h : item ∈ parseCancellationHtml paras) :
    ((item.symbol = "◉" ∧ item.type = "休講") ∨
     (item.symbol = "◎" ∧ item.type = "補講") ∨
     (item.symbol = "◇" ∧ item.type = "遠隔") ∨
     (item.symbol = "☆" ∧ item.type = "変更")) ∧
    item.type ≠ "その他" := by
  obtain ⟨d, sym, content, hs, he⟩ := mem_parse_build h
  rw [he, buildItem_symbol, buildItem_type]
  refine ⟨symbolType_cases hs, ?_⟩
  rcases symbolType_cases hs with ⟨_, ht⟩ | ⟨_, ht⟩ | ⟨_, ht⟩ | ⟨_, ht⟩ <;>
    rw [ht] <;> decide

/-- `buildItem`-level form of the arrow-split field assignment. -/
theorem arrow_split_fields_build (d : String) (sym : Char) (content : String) :
    ((splitArrow (buildItem d sym content).subject).length = 1 →
      (buildItem d sym content).subject_from = none ∧
      (buildItem d sym content).subject_to = none) ∧
    (1 < (splitArrow (buildItem d sym content).subject).length →
      (splitArrow (buildItem d sym content).subject).getD 0 "" ≠ "" →
      joinSep "⇒" ((splitArrow (buildItem d sym content).subject).drop 1) ≠ "" →
      (buildItem d sym content).subject_from =
        some ((splitArrow (buildItem d sym content).subject).getD 0 "") ∧
      (buildItem d sym content).subject_to =
        some (joinSep "⇒" ((splitArrow (buildItem d sym content).subject).drop 1))) ∧
    (((splitArrow (buildItem d sym content).subject).getD 0 "" = "" ∨
      joinSep "⇒" ((splitArrow (buildItem d sym content).subject).drop 1) = "") →
      (buildItem d sym content).subject_from = none ∧
      (buildItem d sym content).subject_to = none) := by
  rw [buildItem_from, buildItem_to, changeFields_eq]
  refine ⟨?_, ?_, ?_⟩
  · intro h1
    rw [if_neg (fun hcon => by omega)]
    exact ⟨rfl, rfl⟩
  · intro hl hf ht
    rw [if_pos ⟨hl, hf, ht⟩]
    exact ⟨rfl, rfl⟩
  · intro hor
    rw [if_neg ?_]
    · exact ⟨rfl, rfl⟩
    · rintro ⟨_, hf, ht⟩
      rcases hor with h | h
      · exact hf h
      · exact ht h

/-- C1 (amended): for every emitted record, if the arrow split of `subject`
yields exactly one segment both fields are absent; if it yields more than
one segment AND both the first segment and the remaining segments rejoined
with the first arrow glyph `⇒` are non-empty, `subject_from` is the first
segment and `subject_to` the rejoined remainder; when either side is empty
both fields are absent (the truthiness guard `if (subjectFrom && subjectTo)`
suppresses them). -/
theorem arrow_split_fields (paras : List Para) (item : CancellationItem)
    (h : item ∈ parseCancellationHtml paras) :
    ((splitArrow item.subject).length = 1 →
      item.subject_from = none ∧ item.subject_to = none) ∧
    (1 < (splitArrow item.subject).length →
      (splitArrow item.subject).getD 0 "" ≠ "" →
      joinSep "⇒" ((splitArrow item.subject).drop 1) ≠ "" →
      item.subject_from = some ((splitArrow item.subject).getD 0 "") ∧
      item.subject_to = some (joinSep "⇒" ((splitArrow item.subject).drop 1))) ∧
    (((splitArrow item.subject).getD 0 "" = "" ∨
      joinSep "⇒" ((splitArrow item.subject).drop 1) = "") →
      item.subject_from = none ∧ item.subject_to = none) := by
  obtain ⟨d, sym, content, _, he⟩ := mem_parse_build h
  subst he
  exact arrow_split_fields_build d sym content

theorem arrow_split_fields_witness :
    sampleItemArrow ∈ parseCancellationHtml sampleDocArrow ∧
    1 < (splitArrow sampleItemArrow.subject).length ∧
    sampleItemArrow.subject_from = some "B" ∧
    sampleItemArrow.subject_to = some "C" :=
  ⟨by decide, by decide,
   (arrow_split_fields sampleDocArrow sampleItemArrow (by decide)).2.1
     (by decide) (by decide) (by decide)⟩

/-- C1 counterexample: on the record paragraph `☆A ⇒X` the arrow split of
the subject `⇒X` yields two segments, yet `subject_from` is absent (the
first segment is the empty string, which is falsy), contradicting the claim
that more than one segment always sets `subject_from` to the first
segment. -/
theorem arrow_split_counterexample :
    parseCancellationHtml [⟨"☆A ⇒X", false⟩] =
      [⟨"日付不明", "変更", "☆", "A", "", "⇒X", none, none, "☆A ⇒X"⟩] ∧
    1 < (splitArrow "⇒X").length := ⟨by decide, by decide⟩

/-- `buildItem`-level form of the period-detection rule. -/
theorem period_detection_build (d : String) (sym : Char) (content : String)
    (hlen : 2 ≤ (splitWs content).length) :
    ((hasDigit ((splitWs content).getD 1 "") ||
      containsSub ((splitWs content).getD 1 "") "限" ||
      containsSub ((splitWs content).getD 1 "") "コマ") = true →
      (buildItem d sym content).period = (splitWs content).getD 1 "" ∧
      (buildItem d sym content).subject =
        joinSep " " ((splitWs content).drop 2)) ∧
    ((hasDigit ((splitWs content).getD 1 "") ||
      containsSub ((splitWs content).getD 1 "") "限" ||
      containsSub ((splitWs content).getD 1 "") "コマ") = false →
      (buildItem d sym content).period = "" ∧
      (buildItem d sym content).subject =
        joinSep " " ((splitWs content).drop 1)) := by
  have h1 : decide (1 < (splitWs content).length) = true :=
    decide_eq_true (by omega)
  constructor <;> intro hc <;> constructor <;>
    (simp only [buildItem, h1, Bool.true_and, hc]; simp)

theorem mk_data (s : String) : String.mk s.data = s := by
  cases s
  rfl

/-- The record's content (the normalized text that followed the symbol) is
recoverable from `raw_text` by dropping its first character. -/
theorem raw_tail (sym : Char) (content : String) :
    String.mk (String.mk [sym] ++ content).data.tail = content := by
  cases content
  rfl

/-- C2: for every emitted record whose content (recovered from `raw_text` by
dropping the leading symbol) splits into at least two whitespace-delimited
tokens, if the second token contains an ASCII digit or the substring 限 or
the substring コマ then `period` is that second token and `subject` joins
the tokens from index 2 with single spaces; otherwise `period` is empty and
`subject` joins the tokens from index 1. In particular tokens such as 3限,
1・2限, 7・8限 and 空きコマ are accepted as period tokens. -/
theorem period_detection (paras : List Para) (item : CancellationItem)
    (h : item ∈ parseCancellationHtml paras)
    (hlen : 2 ≤ (splitWs (String.mk item.raw_text.data.tail)).length) :
    ((hasDigit ((splitWs (String.mk item.raw_text.data.tail)).getD 1 "") ||
      containsSub ((splitWs (String.mk item.raw_text.data.tail)).getD 1 "") "限" ||
      containsSub ((splitWs (String.mk item.raw_text.data.tail)).getD 1 "") "コマ") = true →
      item.period = (splitWs (String.mk item.raw_text.data.tail)).getD 1 "" ∧
      item.subject =
        joinSep " " ((splitWs (String.mk item.raw_text.data.tail)).drop 2)) ∧
    ((hasDigit ((splitWs (String.mk item.raw_text.data.tail)).getD 1 "") ||
      containsSub ((splitWs (String.mk item.raw_text.data.tail)).getD 1 "") "限" ||
      containsSub ((splitWs (String.mk item.raw_text.data.tail)).getD 1 "") "コマ") = false →
      item.period = "" ∧
      item.subject =
        joinSep " " ((splitWs (String.mk item.raw_text.data.tail)).drop 1)) := by
  obtain ⟨d, sym, content, _, he⟩ := mem_parse_build h
  subst he
  have hr : String.mk (buildItem d sym content).raw_text.data.tail = content :=
    raw_tail sym content
  rw [hr] at hlen ⊢
  exact period_detection_build d sym content hlen

theorem period_detection_witness :
    sampleItemPeriod ∈ parseCancellationHtml sampleDocPeriod ∧
    2 ≤ (splitWs (String.mk sampleItemPeriod.raw_text.data.tail)).length ∧
    (hasDigit ((splitWs (String.mk sampleItemPeriod.raw_text.data.tail)).getD 1 "") ||
     containsSub ((splitWs (String.mk sampleItemPeriod.raw_text.data.tail)).getD 1 "") "限" ||
     containsSub ((splitWs (String.mk sampleItemPeriod.raw_text.data.tail)).getD 1 "") "コマ") = true ∧
    sampleItemPeriod.period = "空きコマ" ∧
    sampleItemPeriod.subject = "数学" :=
  ⟨by decide, by decide, by decide,
   (period_detection sampleDocPeriod sampleItemPeriod (by decide)
     (by decide)).1 (by decide)⟩

/-- C5 (amended): a paragraph carrying no emphasis marker whose normalized
text starts with the date-like leading pattern but contains 日程
("schedule") is not classified as a date line and leaves `currentDate`
unchanged; with an emphasis marker the paragraph is a date line regardless
(see the counterexample). -/
theorem schedule_not_dateLine (d : String) (p : Para)
    (hm : p.hasMark = false)
    (_hd : (matchDatePrefix (toHalfWidth (jsTrim p.text))).isSome = true)
    (hs : containsSub (toHalfWidth (jsTrim p.text)) "日程" = true) :
    isDateLine p = false ∧ (processPara d p).1 = d := by
  have hdl : isDateLine p = false := by
    simp [isDateLine, hm, hs]
  exact ⟨hdl, nextDate_of_not_dateLine hdl⟩

theorem schedule_not_dateLine_witness :
    isDateLine ⟨"1/6(火) 日程", false⟩ = false ∧
    (processPara "X" ⟨"1/6(火) 日程", false⟩).1 = "X" :=
  schedule_not_dateLine "X" ⟨"1/6(火) 日程", false⟩ rfl (by decide) (by decide)

/-- C5 counterexample: the paragraph `1/6(火) 日程` WITH an emphasis marker
starts with the date pattern and contains 日程, yet it IS classified as a
date line and it DOES update `currentDate` (to the matched prefix), because
the emphasis-marker disjunct overrides the schedule-word exclusion. -/
theorem schedule_dateLine_with_mark :
    (matchDatePrefix (toHalfWidth (jsTrim "1/6(火) 日程"))).isSome = true ∧
    containsSub (toHalfWidth (jsTrim "1/6(火) 日程")) "日程" = true ∧
    isDateLine ⟨"1/6(火) 日程", true⟩ = true ∧
    (processPara "" ⟨"1/6(火) 日程", true⟩).1 = "1/6(火)" := by
  refine ⟨by decide, by decide, by decide, by decide⟩

/-- `buildItem`-level form of the `raw_text` shape and conditional
reproducibility. -/
theorem raw_text_shape_build (d : String) (sym : Char) (content : String) :
    (buildItem d sym content).raw_text = String.mk [sym] ++ content ∧
    ((∀ t ∈ splitWs content, t ≠ "") →
      content = joinSep " " (splitWs content) →
      (buildItem d sym content).raw_text =
        reconstructRaw (buildItem d sym content)) := by
  refine ⟨rfl, fun hne hj => ?_⟩
  have hfields :
      joinSep " " ([(buildItem d sym content).target_class,
        (buildItem d sym content).period,
        (buildItem d sym content).subject].filter (fun s => decide (s ≠ ""))) =
      joinSep " " (splitWs content) :=
    fields_join_aux
      (decide (1 < (splitWs content).length) &&
        (hasDigit ((splitWs content).getD 1 "") ||
         containsSub ((splitWs content).getD 1 "") "限" ||
         containsSub ((splitWs content).getD 1 "") "コマ"))
      (splitWs content) hne
      (fun hpc => of_decide_eq_true ((Bool.and_eq_true _ _).mp hpc).1)
  calc (buildItem d sym content).raw_text
      = String.mk [sym] ++ content := rfl
    _ = String.mk [sym] ++ joinSep " " (splitWs content) :=
        congrArg (fun x => String.mk [sym] ++ x) hj
    _ = String.mk [sym] ++
          joinSep " " ([(buildItem d sym content).target_class,
            (buildItem d sym content).period,
            (buildItem d sym content).subject].filter
              (fun s => decide (s ≠ ""))) :=
        congrArg (fun x => String.mk [sym] ++ x) hfields.symm
    _ = reconstructRaw (buildItem d sym content) := rfl

/-- C8 (amended): for every emitted record, `raw_text` is the leading symbol
concatenated with the normalized content that followed it (recovered from
`raw_text` by dropping its first character); `raw_text` is reproducible from
the record's other fields (symbol, target_class, period, subject) whenever
the content's tokens are nonempty and separated by single spaces — in
general it is not, because the original whitespace runs are collapsed in the
fields (see the counterexample). -/
theorem raw_text_shape (paras : List Para) (item : CancellationItem)
    (h : item ∈ parseCancellationHtml paras) :
    item.raw_text = item.symbol ++ String.mk item.raw_text.data.tail ∧
    ((∀ t ∈ splitWs (String.mk item.raw_text.data.tail), t ≠ "") →
      String.mk item.raw_text.data.tail =
        joinSep " " (splitWs (String.mk item.raw_text.data.tail)) →
      item.raw_text = reconstructRaw item) := by
  obtain ⟨d, sym, content, _, he⟩ := mem_parse_build h
  subst he
  have hr : String.mk (buildItem d sym content).raw_text.data.tail = content :=
    raw_tail sym content
  rw [hr, buildItem_symbol]
  exact raw_text_shape_build d sym content

theorem raw_text_shape_witness :
    sampleItem ∈ parseCancellationHtml sampleDoc ∧
    sampleItem.raw_text = sampleItem.symbol ++
      String.mk sampleItem.raw_text.data.tail ∧
    sampleItem.raw_text = reconstructRaw sampleItem :=
  ⟨by decide, (raw_text_shape sampleDoc sampleItem (by decide)).1,
   (raw_text_shape sampleDoc sampleItem (by decide)).2 (by decide) (by decide)⟩

/-- C8 counterexample: the record paragraphs `◉A  B` (two spaces) and
`◉A B` (one space) yield records agreeing on `symbol`, `target_class`,
`period` and `subject` (and every other field except `raw_text`), but with
different `raw_text`, so `raw_text` is not always reproducible from those
fields. -/
theorem raw_text_counterexample :
    parseCancellationHtml [⟨"◉A  B", false⟩] =
      [⟨"日付不明", "休講", "◉", "A", "", "B", none, none, "◉A  B"⟩] ∧
    parseCancellationHtml [⟨"◉A B", false⟩] =
      [⟨"日付不明", "休講", "◉", "A", "", "B", none, none, "◉A B"⟩] ∧
    ("◉A  B" : String) ≠ "◉A B" := ⟨by decide, by decide, by decide⟩

/-- C9: the handler maps the observed upstream outcome to distinct
caller-observable error categories: upstream status 404 to a not-found
response (404 "Article Not Found"), any other non-2xx upstream status to an
upstream-error response (502), a timeout of the bounded-time fetch to a
gateway-timeout response (504), and any other exception to an
internal-error response (500). -/
theorem fetch_error_mapping (pid : String) (s : Nat) (post : WpPost) :
    fetchAndParse pid (.response 404 post) =
      (404, .errorMsg "Article Not Found" (some pid)) ∧
    (¬(200 ≤ s ∧ s ≤ 299) → s ≠ 404 →
      fetchAndParse pid (.response s post) =
        (502, .errorMsg ("WordPress API Error: " ++ toString s) none)) ∧
    fetchAndParse pid .abortError =
      (504, .errorMsg "External API timeout - please try again" none) ∧
    fetchAndParse pid .otherError =
      (500, .errorMsg "Internal Server Error" none) := by
  refine ⟨rfl, fun h1 h2 => ?_, rfl, rfl⟩
  have hok : (200 ≤ s && s ≤ 299) = false := by
    rw [Bool.and_eq_false_iff]
    by_cases hlo : 200 ≤ s
    · right
      simp only [decide_eq_false_iff_not]
      intro hhi
      exact h1 ⟨hlo, hhi⟩
    · left
      simp only [decide_eq_false_iff_not]
      exact hlo
  simp only [fetchAndParse]
  rw [hok]
  simp [h2]

theorem fetch_error_mapping_witness :
    fetchAndParse "65544" (.response 503 ⟨"", "", "", []⟩) =
      (502, .errorMsg "WordPress API Error: 503" none) :=
  (fetch_error_mapping "65544" 503 ⟨"", "", "", []⟩).2.1 (by decide) (by decide)

/-- C10: a paragraph carrying the emphasis marker whose trimmed text is
empty (or whitespace-only, which trims to empty) is classified as a date
line and sets `currentDate` to the empty string, so every record emitted
after it and before the next date line carries the sentinel date 日付不明
even though a date paragraph has been seen. -/
theorem empty_mark_paragraph_resets_date (d : String) (p : Para)
    (ps : List Para) (hm : p.hasMark = true) (ht : jsTrim p.text = "") :
    isDateLine p = true ∧ (processPara d p).1 = "" ∧
    ((∀ q ∈ ps, isDateLine q = false) →
      ∀ item ∈ parseParas (p :: ps) d, item.date = "日付不明") := by
  have hdl : isDateLine p = true := by simp [isDateLine, hm]
  have hpp1 : (processPara d p).1 = "" := by
    unfold processPara
    rw [if_pos (by simp [hdl]), ht]
    rfl
  have hpp2 : (processPara d p).2 = none := by
    unfold processPara
    rw [if_pos (by simp [hdl])]
    split <;> rfl
  refine ⟨hdl, hpp1, fun hnd item hmem => ?_⟩
  rw [parseParas] at hmem
  simp only [hpp2] at hmem
  rw [hpp1] at hmem
  exact parseParas_sentinel ps hnd item hmem

theorem empty_mark_paragraph_resets_date_witness :
    isDateLine ⟨"　", true⟩ = true ∧
    (processPara "1/1(月)" ⟨"　", true⟩).1 = "" ∧
    sampleItem.date = "日付不明" :=
  have h := empty_mark_paragraph_resets_date "1/1(月)" ⟨"　", true⟩ sampleDoc
    rfl (by decide)
  ⟨h.1, h.2.1, h.2.2 (by decide) sampleItem (by decide)⟩

theorem symbol_kind_closed_witness :
    ((sampleItem.symbol = "◉" ∧ sampleItem.type = "休講") ∨
     (sampleItem.symbol = "◎" ∧ sampleItem.type = "補講") ∨
     (sampleItem.symbol = "◇" ∧ sampleItem.type = "遠隔") ∨
     (sampleItem.symbol = "☆" ∧ sampleItem.type = "変更")) ∧
    sampleItem.type ≠ "その他" :=
  symbol_kind_closed sampleDoc sampleItem (by decide)

end Bulletin
